import Mathlib

/-!
Shallow embedding of `src/ex2/nexus_pipeline.py` (the multi-format,
multi-stage pipeline manager): the record model, stages, the
`ProcessingPipeline` base class with its `execute` failure boundary and
statistics, and the `NexusManager` registry with `execute_pipeline`,
`chain_pipelines`, `get_all_stats` and `monitor_performance`.

Python objects are modelled as values; in-place mutation of a pipeline's
statistics (`self.stats[...] += 1`) is modelled by returning the updated
pipeline alongside the result, and the manager operations thread the
updated registry explicitly.  A Python exception raised by a stage is
modelled with `Except PyErr`; `try/except Exception` is the `match` on
that `Except`.
-/

set_option autoImplicit false

namespace NexusSpec

/-- Python runtime values as they flow through the pipeline (`data: Any`).
The variants the source discriminates on: `dict` (keyed-field mappings,
insertion-ordered), `str` (delimited or free text), `None`, lists, and
integers. -/
inductive PyVal where
  | none : PyVal
  | str : String → PyVal
  | int : Int → PyVal
  | dict : List (String × PyVal) → PyVal
  | list : List PyVal → PyVal

/-- A Python exception value (only its description matters here). -/
inductive PyErr where
  | exc : String → PyErr
deriving DecidableEq, Repr

/-- The `ProcessingStage` protocol: one `process(data) -> data` operation.
A stage may raise (`Except.error`); the concrete stages in the source never
do, but `execute`'s failure boundary is written for arbitrary stages. -/
def Stage : Type := PyVal → Except PyErr PyVal

/-- The `stats` dictionary of a pipeline: `{'success': 0, 'errors': 0}`. -/
structure PipelineStats where
  success : Nat
  errors : Nat
deriving DecidableEq, Repr

/-- A `ProcessingPipeline`: an ordered stage list plus its statistics.
The `JSONAdapter`/`CSVAdapter`/`StreamAdapter` subclasses differ only by
their `pipeline_id` tag and implement the identical `process` loop, so one
type models all three; the id tag has no behavioural effect and is omitted. -/
structure ProcessingPipeline where
  stages : List Stage
  stats : PipelineStats

/-- Fresh pipeline as built by `ProcessingPipeline.__init__`: no stages,
zeroed counters. -/
def ProcessingPipeline.mk0 : ProcessingPipeline :=
  { stages := [], stats := { success := 0, errors := 0 } }

/-- `add_stage`: appends to the ordered stage sequence. -/
def ProcessingPipeline.add_stage (p : ProcessingPipeline) (s : Stage) :
    ProcessingPipeline :=
  { p with stages := p.stages ++ [s] }

/-- The stage loop shared by `JSONAdapter.process`, `CSVAdapter.process`
and `StreamAdapter.process`:
`result = data; for stage in self.stages: result = stage.process(result)`.
A stage that raises propagates the exception out of `process`. -/
def processStages : List Stage → PyVal → Except PyErr PyVal
  | [], data => Except.ok data
  | s :: rest, data =>
    match s data with
    | Except.ok r => processStages rest r
    | Except.error e => Except.error e

/-- `process(data)`: folds the record through every stage in order. -/
def ProcessingPipeline.process (p : ProcessingPipeline) (data : PyVal) :
    Except PyErr PyVal :=
  processStages p.stages data

/-- `execute(data)`: runs `process` inside `try/except Exception`.
On success increments `stats['success']` and returns the result; on a
raised exception increments `stats['errors']`, logs, and returns `None`.
The returned pipeline carries the mutated statistics. -/
def ProcessingPipeline.execute (p : ProcessingPipeline) (data : PyVal) :
    PyVal × ProcessingPipeline :=
  match p.process data with
  | Except.ok result =>
    (result, { p with stats := { p.stats with success := p.stats.success + 1 } })
  | Except.error _ =>
    (PyVal.none, { p with stats := { p.stats with errors := p.stats.errors + 1 } })

/-- `execute` at the exception level: the `try/except Exception` catches
every stage-raised failure, so both branches return normally (`Except.ok`);
no `Except.error` constructor appears in the result. -/
def ProcessingPipeline.executeE (p : ProcessingPipeline) (data : PyVal) :
    Except PyErr (PyVal × ProcessingPipeline) :=
  match p.process data with
  | Except.ok result =>
    Except.ok (result, { p with stats := { p.stats with success := p.stats.success + 1 } })
  | Except.error _ =>
    Except.ok (PyVal.none, { p with stats := { p.stats with errors := p.stats.errors + 1 } })

/-- `get_stats`: returns a snapshot copy of the stats dictionary. -/
def ProcessingPipeline.get_stats (p : ProcessingPipeline) : PipelineStats :=
  p.stats

/-- `TransformStage.process` (`src/ex2/nexus_pipeline.py` lines 80-93).
The `isinstance` branches (dict / str containing a comma / other str /
fallthrough) differ only in the log line printed; every branch returns
`data` unchanged. -/
def TransformStage.process (data : PyVal) : PyVal :=
  match data with
  | PyVal.dict kvs => PyVal.dict kvs
  | PyVal.str s => if s.contains ',' then PyVal.str s else PyVal.str s
  | v => v

/-- `TransformStage` as a `ProcessingStage` (its `process` never raises). -/
def transformStage : Stage := fun data => Except.ok (TransformStage.process data)

/-- Python `dict` lookup on an insertion-ordered association list. -/
def dictFind {α : Type} (l : List (String × α)) (k : String) : Option α :=
  match l with
  | [] => Option.none
  | (k', v) :: rest => if k' = k then Option.some v else dictFind rest k

/-- Python `dict` in-place update at an existing key (keeps its position). -/
def dictSet (l : List (String × ProcessingPipeline)) (k : String)
    (v : ProcessingPipeline) : List (String × ProcessingPipeline) :=
  match l with
  | [] => []
  | (k', v') :: rest =>
    if k' = k then (k', v) :: rest else (k', v') :: dictSet rest k v

/-- One entry of the manager's execution history:
`{'pipeline': name, 'data': data, 'result': result}`. -/
structure HistoryEntry where
  pipeline : String
  data : PyVal
  result : PyVal

/-- `NexusManager`: the registry of named pipelines (insertion-ordered, as
a Python `dict`) and the append-only execution history. -/
structure NexusManager where
  pipelines : List (String × ProcessingPipeline)
  execution_history : List HistoryEntry

/-- Fresh manager as built by `NexusManager.__init__`. -/
def NexusManager.mk0 : NexusManager :=
  { pipelines := [], execution_history := [] }

/-- `register_pipeline(name, pipeline)`: if `name` is already registered,
prints a duplicate notice and returns leaving the registry untouched;
otherwise inserts the pipeline under `name`. -/
def NexusManager.register_pipeline (m : NexusManager) (name : String)
    (p : ProcessingPipeline) : NexusManager :=
  if (dictFind m.pipelines name).isSome then m
  else { m with pipelines := m.pipelines ++ [(name, p)] }

/-- `execute_pipeline(name, data)`: if `name` is not registered, prints a
not-found notice and returns `None` (the history is not touched).
Otherwise runs the pipeline's `execute`, appends
`{'pipeline': name, 'data': data, 'result': result}` to the history, and
returns the result.  The registry keeps the pipeline with its mutated
statistics. -/
def NexusManager.execute_pipeline (m : NexusManager) (name : String)
    (data : PyVal) : PyVal × NexusManager :=
  match dictFind m.pipelines name with
  | Option.none => (PyVal.none, m)
  | Option.some p =>
    let r := p.execute data
    (r.1,
      { pipelines := dictSet m.pipelines name r.2,
        execution_history :=
          m.execution_history ++ [{ pipeline := name, data := data, result := r.1 }] })

/-- The loop of `chain_pipelines`: for each name in order, if registered,
`current_data = pipeline.process(current_data)`; unregistered names are
skipped.  A stage exception raised by some hop's `process` propagates. -/
def chainLoop (reg : List (String × ProcessingPipeline)) :
    List String → PyVal → Except PyErr PyVal
  | [], data => Except.ok data
  | n :: rest, data =>
    match dictFind reg n with
    | Option.some p =>
      match p.process data with
      | Except.ok d => chainLoop reg rest d
      | Except.error e => Except.error e
    | Option.none => chainLoop reg rest data

/-- `chain_pipelines(pipeline_names, data)`: threads the record through
each registered hop's `process` and returns the final value.  It calls
`process`, never `execute`, so no statistic or history is touched: the
manager component of the result is the manager unchanged (also when an
exception escapes mid-chain, since no mutation precedes it). -/
def NexusManager.chain_pipelines (m : NexusManager) (names : List String)
    (data : PyVal) : Except PyErr PyVal × NexusManager :=
  (chainLoop m.pipelines names data, m)

/-- `get_all_stats()`: one stats snapshot per registered pipeline, in
registry (insertion) order. -/
def NexusManager.get_all_stats (m : NexusManager) :
    List (String × PipelineStats) :=
  m.pipelines.map (fun nv => (nv.1, nv.2.get_stats))

/-- The record returned by `monitor_performance`. -/
structure MonitorReport where
  total_pipelines : Nat
  total_success : Nat
  total_errors : Nat
  efficiency : ℚ
deriving DecidableEq, Repr

/-- `monitor_performance()`: sums the per-pipeline counters; efficiency is
`total_success / total_operations * 100` guarded by
`if total_operations > 0`, else `0`.  The Python float arithmetic is
modelled exactly over `ℚ` (the operands are small integers). -/
def NexusManager.monitor_performance (m : NexusManager) : MonitorReport :=
  let total_success : Nat :=
    m.pipelines.foldl (fun acc nv => acc + nv.2.get_stats.success) 0
  let total_errors : Nat :=
    m.pipelines.foldl (fun acc nv => acc + nv.2.get_stats.errors) 0
  let total_operations : Nat := total_success + total_errors
  let efficiency : ℚ :=
    if total_operations > 0 then
      (total_success : ℚ) / (total_operations : ℚ) * 100
    else 0
  { total_pipelines := m.pipelines.length
    total_success := total_success
    total_errors := total_errors
    efficiency := efficiency }

/-! ## Concrete fixtures used by witnesses and counterexamples -/

/-- A stage that raises on every record (any exception-raising stage
object satisfying the `ProcessingStage` protocol). -/
def failStage : Stage := fun _ => Except.error (PyErr.exc "boom")

/-- A pipeline with an empty stage list. -/
def pOk : ProcessingPipeline := ProcessingPipeline.mk0

/-- A pipeline whose single stage always raises. -/
def pBad : ProcessingPipeline := ProcessingPipeline.mk0.add_stage failStage

/-- A pipeline with the (pass-through) transform stage. -/
def pTr : ProcessingPipeline := ProcessingPipeline.mk0.add_stage transformStage

/-- A manager with pipelines registered under "A" and "B". -/
def mAB : NexusManager :=
  (NexusManager.mk0.register_pipeline "A" pTr).register_pipeline "B" pOk

/-- A manager with only "A" registered. -/
def mA : NexusManager := NexusManager.mk0.register_pipeline "A" pTr

/-- A manager where "F" is a pipeline whose stage always raises. -/
def mF : NexusManager :=
  (NexusManager.mk0.register_pipeline "A" pTr).register_pipeline "F" pBad

/-! ## Helper lemmas -/

/-- Appending a fresh key to a registry makes it findable. -/
theorem dictFind_append_self {α : Type} (l : List (String × α)) (k : String)
    (v : α) (h : dictFind l k = Option.none) :
    dictFind (l ++ [(k, v)]) k = Option.some v := by
  induction l with
  | nil => simp [dictFind]
  | cons hd tl ih =>
    rw [dictFind] at h
    by_cases hk : hd.1 = k
    · simp [hk] at h
    · simp only [List.cons_append, dictFind, hk, if_neg hk]
      exact ih (by simpa [hk] using h)

/-- `dictFind` commutes with mapping over the values. -/
theorem dictFind_map {α β : Type} (g : α → β) (l : List (String × α))
    (k : String) :
    dictFind (l.map fun nv => (nv.1, g nv.2)) k = (dictFind l k).map g := by
  induction l with
  | nil => rfl
  | cons hd tl ih =>
    by_cases hk : hd.1 = k <;> simp [dictFind, hk, ih]

/-- The chain loop splits over list append as sequential composition. -/
theorem chainLoop_append (reg : List (String × ProcessingPipeline))
    (xs ys : List String) (d : PyVal) :
    chainLoop reg (xs ++ ys) d =
      (chainLoop reg xs d).bind (fun d2 => chainLoop reg ys d2) := by
  induction xs generalizing d with
  | nil => rfl
  | cons n rest ih =>
    simp only [List.cons_append, chainLoop]
    split
    · split
      · exact ih _
      · rfl
    · exact ih d

/-- An unregistered hop at the head of the chain is a no-op. -/
theorem chainLoop_skip (reg : List (String × ProcessingPipeline))
    (n : String) (rest : List String) (d : PyVal)
    (h : dictFind reg n = Option.none) :
    chainLoop reg (n :: rest) d = chainLoop reg rest d := by
  simp [chainLoop, h]

/-! ## Claims -/

/-- C9: for every record `r` and every pipeline whose stage list is empty,
`process(r)` returns `r` unchanged (identity). -/
theorem c9_empty_pipeline_process_identity (p : ProcessingPipeline)
    (r : PyVal) (h : p.stages = []) : p.process r = Except.ok r := by
  rw [ProcessingPipeline.process, h, processStages]

/-- Witness for C9 at a concrete empty pipeline and record. -/
theorem c9_witness :
    pOk.stages = [] ∧ pOk.process (PyVal.str "x") = Except.ok (PyVal.str "x") :=
  ⟨rfl, c9_empty_pipeline_process_identity pOk (PyVal.str "x") rfl⟩

/-- C3: a successful `execute` increments `stats.success` by exactly 1 and
leaves `stats.errors` unchanged; a failing `execute` increments
`stats.errors` by exactly 1 and leaves `stats.success` unchanged. -/
theorem c3_execute_stats (p : ProcessingPipeline) (d : PyVal) :
    (∀ v, p.process d = Except.ok v →
      (p.execute d).2.stats.success = p.stats.success + 1 ∧
      (p.execute d).2.stats.errors = p.stats.errors) ∧
    (∀ e, p.process d = Except.error e →
      (p.execute d).2.stats.errors = p.stats.errors + 1 ∧
      (p.execute d).2.stats.success = p.stats.success) := by
  constructor <;> intro x hx <;> simp [ProcessingPipeline.execute, hx]

/-- Witness for C3: one concrete successful call and one concrete failing
call, with the counters evaluated. -/
theorem c3_witness :
    ((pOk.execute PyVal.none).2.stats.success = 1 ∧
     (pOk.execute PyVal.none).2.stats.errors = 0) ∧
    ((pBad.execute PyVal.none).2.stats.errors = 1 ∧
     (pBad.execute PyVal.none).2.stats.success = 0) :=
  ⟨(c3_execute_stats pOk PyVal.none).1 PyVal.none rfl,
   (c3_execute_stats pBad PyVal.none).2 (PyErr.exc "boom") rfl⟩

/-- C2 counterexample: the return value of `execute` is a bare nullable,
not a discriminated success/absence.  A successful call on an empty
pipeline with the record `None` and a failing call return the very same
value `None`; only the statistics differ, so the claimed "caller can
always distinguish by the return value" is false on the code. -/
theorem c2_counterexample :
    (pOk.execute PyVal.none).1 = (pBad.execute PyVal.none).1 ∧
    (pOk.execute PyVal.none).2.stats.success = 1 ∧
    (pBad.execute PyVal.none).2.stats.errors = 1 :=
  ⟨rfl, rfl, rfl⟩

/-- C2 amended: `execute` never lets a stage-raised failure escape (both
branches of the `try/except` return normally), and on a stage failure it
returns the absence value `None` — but that absence value is `None`
itself, not a discriminated union. -/
theorem c2_execute_contains_failures (p : ProcessingPipeline) (d : PyVal) :
    (∃ out, p.executeE d = Except.ok out) ∧
    (∀ e, p.process d = Except.error e → (p.execute d).1 = PyVal.none) := by
  constructor
  · rw [ProcessingPipeline.executeE]
    cases p.process d with
    | ok r => exact ⟨_, rfl⟩
    | error e => exact ⟨_, rfl⟩
  · intro e he
    simp [ProcessingPipeline.execute, he]

/-- Witness for C2 at the concrete failing pipeline. -/
theorem c2_witness :
    (∃ out, pBad.executeE PyVal.none = Except.ok out) ∧
    (pBad.execute PyVal.none).1 = PyVal.none :=
  ⟨(c2_execute_contains_failures pBad PyVal.none).1,
   (c2_execute_contains_failures pBad PyVal.none).2 (PyErr.exc "boom") rfl⟩

/-- C1 counterexample: `execute_pipeline` on an unregistered name returns
the absence value, but the execution history gains no entry (the source
returns before the `execution_history.append` line), contradicting the
claimed "history gains exactly one entry". -/
theorem c1_counterexample :
    (NexusManager.mk0.execute_pipeline "Missing" (PyVal.str "x")).1 =
      PyVal.none ∧
    (NexusManager.mk0.execute_pipeline "Missing"
        (PyVal.str "x")).2.execution_history.length = 0 :=
  ⟨rfl, rfl⟩

/-- C1 amended: `execute_pipeline` with a name not in the registry returns
the absence value without raising and leaves the manager — in particular
its execution history — entirely unchanged. -/
theorem c1_missing_pipeline_absence_no_history (m : NexusManager)
    (name : String) (d : PyVal)
    (h : dictFind m.pipelines name = Option.none) :
    m.execute_pipeline name d = (PyVal.none, m) := by
  rw [NexusManager.execute_pipeline, h]

/-- Witness for C1 at the fresh manager and an unregistered name. -/
theorem c1_witness :
    NexusManager.mk0.execute_pipeline "Missing" (PyVal.str "x") =
      (PyVal.none, NexusManager.mk0) :=
  c1_missing_pipeline_absence_no_history NexusManager.mk0 "Missing"
    (PyVal.str "x") rfl

/-- C4 counterexample: on the delimited-text record `"a,b"` the transform
stage returns the input string unchanged — it is not restructured into a
parsed field-list (no list value is ever produced). -/
theorem c4_counterexample :
    TransformStage.process (PyVal.str "a,b") = PyVal.str "a,b" ∧
    ¬ ∃ fields, TransformStage.process (PyVal.str "a,b") = PyVal.list fields := by
  constructor
  · simp [TransformStage.process]
  · rintro ⟨fields, hf⟩
    simp [TransformStage.process] at hf

/-- C4 amended: the transform stage returns every record unchanged,
whatever its category; the `isinstance` branches differ only in the
transformation description they log, never in the returned value. -/
theorem c4_transform_is_passthrough (v : PyVal) :
    TransformStage.process v = v := by
  cases v <;> simp [TransformStage.process]

/-- A one-hop chain on a registered name is that pipeline's `process`. -/
theorem chainLoop_single (reg : List (String × ProcessingPipeline))
    (n : String) (p : ProcessingPipeline) (d : PyVal)
    (h : dictFind reg n = Option.some p) :
    chainLoop reg [n] d = p.process d := by
  simp only [chainLoop, h]
  cases p.process d <;> rfl

/-- C5: for registered pipelines `A` and `B`,
`chain_pipelines([nA, nB], r)` is the sequential composition of the two
`process` calls, left to right (`B.process(A.process(r))`, with an
exception in `A.process` propagating past `B`). -/
theorem c5_chain_two_is_sequential_composition (m : NexusManager)
    (nA nB : String) (A B : ProcessingPipeline) (r : PyVal)
    (hA : dictFind m.pipelines nA = Option.some A)
    (hB : dictFind m.pipelines nB = Option.some B) :
    (m.chain_pipelines [nA, nB] r).1 = (A.process r).bind B.process := by
  show chainLoop m.pipelines [nA, nB] r = _
  rw [show [nA, nB] = [nA] ++ [nB] from rfl, chainLoop_append,
    chainLoop_single m.pipelines nA A r hA]
  cases A.process r with
  | ok r2 => exact chainLoop_single m.pipelines nB B r2 hB
  | error e => rfl

/-- Witness for C5 on a concrete two-pipeline manager. -/
theorem c5_witness :
    (mAB.chain_pipelines ["A", "B"] (PyVal.int 5)).1 =
      (pTr.process (PyVal.int 5)).bind pOk.process :=
  c5_chain_two_is_sequential_composition mAB "A" "B" pTr pOk
    (PyVal.int 5) rfl rfl

/-- C6: `chain_pipelines` skips every unregistered name without aborting
(the previous hop's output flows into the next registered hop), the empty
chain is the identity, and a chain with no registered name returns the
original record. -/
theorem c6_chain_skips_unregistered (m : NexusManager) (r : PyVal) :
    (m.chain_pipelines [] r).1 = Except.ok r ∧
    (∀ pre post n, dictFind m.pipelines n = Option.none →
      (m.chain_pipelines (pre ++ n :: post) r).1 =
        (m.chain_pipelines (pre ++ post) r).1) ∧
    (∀ names, (∀ n, n ∈ names → dictFind m.pipelines n = Option.none) →
      (m.chain_pipelines names r).1 = Except.ok r) := by
  refine ⟨rfl, ?_, ?_⟩
  · intro pre post n h
    show chainLoop m.pipelines (pre ++ n :: post) r =
      chainLoop m.pipelines (pre ++ post) r
    rw [chainLoop_append, chainLoop_append]
    exact congrArg _
      (funext fun d => chainLoop_skip m.pipelines n post d h)
  · intro names
    induction names with
    | nil => intro _; rfl
    | cons n rest ih =>
      intro h
      show chainLoop m.pipelines (n :: rest) r = Except.ok r
      rw [chainLoop_skip m.pipelines n rest r (h n (List.mem_cons_self n rest))]
      exact ih (fun x hx => h x (List.mem_cons_of_mem n hx))

/-- Witness for C6: on a manager with only "A" registered, the empty
chain, a chain skipping the unregistered "B", and an all-unregistered
chain, each evaluated. -/
theorem c6_witness :
    (mA.chain_pipelines [] (PyVal.int 5)).1 = Except.ok (PyVal.int 5) ∧
    (mA.chain_pipelines ["A", "B"] (PyVal.int 5)).1 =
      (mA.chain_pipelines ["A"] (PyVal.int 5)).1 ∧
    (mA.chain_pipelines ["B"] (PyVal.int 5)).1 = Except.ok (PyVal.int 5) :=
  ⟨(c6_chain_skips_unregistered mA (PyVal.int 5)).1,
   (c6_chain_skips_unregistered mA (PyVal.int 5)).2.1 ["A"] [] "B" rfl,
   (c6_chain_skips_unregistered mA (PyVal.int 5)).2.2 ["B"]
     (fun n hn => by cases List.mem_singleton.mp hn; rfl)⟩

/-- C7: registering the same name twice is a non-fatal no-op on the second
call — the manager is unchanged, so `get_all_stats()[name]` stays tied to
the first-registered pipeline's counters (the second pipeline never enters
the registry, so its activity cannot affect the entry). -/
theorem c7_duplicate_registration_first_wins (m : NexusManager)
    (n : String) (p1 p2 : ProcessingPipeline)
    (h : dictFind m.pipelines n = Option.none) :
    (m.register_pipeline n p1).register_pipeline n p2 =
      m.register_pipeline n p1 ∧
    dictFind ((m.register_pipeline n p1).register_pipeline n p2).get_all_stats
      n = Option.some p1.get_stats := by
  have hfind : dictFind (m.register_pipeline n p1).pipelines n =
      Option.some p1 := by
    rw [NexusManager.register_pipeline, h]
    rw [if_neg (by simp)]
    exact dictFind_append_self m.pipelines n p1 h
  have hreg : (m.register_pipeline n p1).register_pipeline n p2 =
      m.register_pipeline n p1 := by
    conv_lhs => rw [NexusManager.register_pipeline]
    rw [hfind]
    exact if_pos rfl
  refine ⟨hreg, ?_⟩
  rw [hreg, NexusManager.get_all_stats, dictFind_map, hfind]
  rfl

/-- Witness for C7 at a concrete double registration. -/
theorem c7_witness :
    (NexusManager.mk0.register_pipeline "A" pOk).register_pipeline "A" pBad =
      NexusManager.mk0.register_pipeline "A" pOk ∧
    dictFind ((NexusManager.mk0.register_pipeline "A" pOk).register_pipeline
      "A" pBad).get_all_stats "A" = Option.some pOk.get_stats :=
  c7_duplicate_registration_first_wins NexusManager.mk0 "A" pOk pBad rfl

/-- C8: `monitor_performance` reports
`efficiency = total_success / (total_success + total_errors) * 100`
(over `ℚ` this also covers the zero-denominator case, where it is `0`),
`efficiency = 0` whenever there are no operations, and on a manager with
zero registered pipelines every field is zero — no division-by-zero fault
is possible. -/
theorem c8_monitor_performance (m : NexusManager) :
    (m.monitor_performance.efficiency =
      (m.monitor_performance.total_success : ℚ) /
        ((m.monitor_performance.total_success : ℚ) +
          (m.monitor_performance.total_errors : ℚ)) * 100) ∧
    (m.monitor_performance.total_success +
        m.monitor_performance.total_errors = 0 →
      m.monitor_performance.efficiency = 0) ∧
    NexusManager.mk0.monitor_performance =
      { total_pipelines := 0, total_success := 0, total_errors := 0,
        efficiency := 0 } := by
  refine ⟨?_, ?_, ?_⟩
  · simp only [NexusManager.monitor_performance]
    generalize m.pipelines.foldl
      (fun acc nv => acc + nv.2.get_stats.success) 0 = a
    generalize m.pipelines.foldl
      (fun acc nv => acc + nv.2.get_stats.errors) 0 = b
    by_cases hab : a + b > 0
    · rw [if_pos hab]
      push_cast
      ring
    · rw [if_neg hab]
      have ha : a = 0 := by omega
      have hb : b = 0 := by omega
      subst ha
      subst hb
      norm_num
  · intro h0
    simp only [NexusManager.monitor_performance] at h0 ⊢
    rw [if_neg (by omega)]
  · rfl

/-- Witness for C8: the zero-operation implication at the fresh manager. -/
theorem c8_witness :
    NexusManager.mk0.monitor_performance.efficiency = 0 ∧
    NexusManager.mk0.monitor_performance =
      { total_pipelines := 0, total_success := 0, total_errors := 0,
        efficiency := 0 } :=
  ⟨(c8_monitor_performance NexusManager.mk0).2.1 rfl,
   (c8_monitor_performance NexusManager.mk0).2.2⟩

/-- C10: `chain_pipelines` performs no failure capture: when the pipeline
at a registered hop raises a stage exception on the record reaching it,
the exception propagates out of `chain_pipelines`, and the manager — every
pipeline's counters included — is left unchanged (`process`, not
`execute`, is called, so no statistic is touched). -/
theorem c10_chain_propagates_failures (m : NexusManager)
    (pre post : List String) (n : String) (p : ProcessingPipeline)
    (r r2 : PyVal) (e : PyErr)
    (h1 : (m.chain_pipelines pre r).1 = Except.ok r2)
    (h2 : dictFind m.pipelines n = Option.some p)
    (h3 : p.process r2 = Except.error e) :
    (m.chain_pipelines (pre ++ n :: post) r).1 = Except.error e ∧
    (m.chain_pipelines (pre ++ n :: post) r).2 = m := by
  refine ⟨?_, rfl⟩
  show chainLoop m.pipelines (pre ++ n :: post) r = Except.error e
  rw [chainLoop_append]
  have h1' : chainLoop m.pipelines pre r = Except.ok r2 := h1
  rw [h1']
  show chainLoop m.pipelines (n :: post) r2 = Except.error e
  simp only [chainLoop, h2, h3]

/-- Witness for C10: a concrete chain whose second hop's stage raises. -/
theorem c10_witness :
    (mF.chain_pipelines ["A", "F"] (PyVal.int 5)).1 =
      Except.error (PyErr.exc "boom") ∧
    (mF.chain_pipelines ["A", "F"] (PyVal.int 5)).2 = mF :=
  c10_chain_propagates_failures mF ["A"] [] "F" pBad (PyVal.int 5)
    (PyVal.int 5) (PyErr.exc "boom") rfl rfl rfl

end NexusSpec
